import Mathlib

set_option maxRecDepth 8000
set_option linter.unusedVariables false

/-!
Shallow embedding of the xstalker sources (xstalker/util.py and
xstalker/stats.py) and proofs about its scheduler and time-accounting
state machine.

Conventions of the embedding:
  - Python None and missing returns are modelled with Option; a Python
    function that falls off the end returns Option.none.
  - Raised exceptions are modelled with Except.error carrying a message.
  - Mutable object state is passed explicitly as a record.
  - Wall-clock reads (datetime.today, time.time) are passed in as an
    explicit now parameter.
-/

/-- Activation reason constants of util.Daemon (NOT_ACTIVATED, ACTIVATED_MANUAL,
ACTIVATED_TIMEOUT, ACTIVATED_DATA). -/
inductive ActivationReason where
  | NOT_ACTIVATED
  | ACTIVATED_MANUAL
  | ACTIVATED_TIMEOUT
  | ACTIVATED_DATA
deriving DecidableEq, Repr

/-- State of util.Optional: a wrapper around a nullable object. -/
structure Optional (α : Type) where
  obj : Option α
deriving DecidableEq, Repr

/-- util.Optional.has_value: the wrapped object is not None. -/
def Optional.has_value {α : Type} (o : Optional α) : Bool :=
  o.obj.isSome

/-- util.Optional.__eq__ for a right operand that is not an Optional instance
(the only shape used by stats.StatManager.log, where the operand is a category
string or None): the isinstance branch is skipped, leaving
self.has_value() and other == self.value(), and None compares unequal to any
string value. -/
def Optional.eqVal {α : Type} [BEq α] (self : Optional α) (other : Option α) : Bool :=
  match self.obj, other with
  | some v, some x => x == v
  | _, _ => false

/-- util.Optional.set_value: overwrite the wrapped object. -/
def Optional.set_value {α : Type} (self : Optional α) (v : Option α) : Optional α :=
  { self with obj := v }

/-- util.Optional.map: apply f to the value when present, empty otherwise. -/
def Optional.map {α β : Type} (self : Optional α) (f : α → β) : Optional β :=
  Optional.mk (self.obj.map f)

/-- stats.Context: window identity snapshot holding the lower-cased window
name and window class, each wrapped in an Optional. -/
structure Context where
  win_name : Optional String
  win_class : Optional String
deriving DecidableEq, Repr

/-- Python str.lower restricted to its character-wise behaviour: every
character is lower-cased (String.toLower character by character, written
structurally over the character list so that it evaluates by reduction). -/
def pyLower (s : String) : String :=
  String.mk (s.data.map Char.toLower)

/-- stats.Context.__init__ from the keyword arguments win_name and win_class:
each is wrapped in an Optional and lower-cased through Optional.map. -/
def Context.make (win_name win_class : Option String) : Context :=
  { win_name := (Optional.mk win_name).map pyLower
    win_class := (Optional.mk win_class).map pyLower }

/-- stats.Database in-memory state: db maps a (date, hour) time point to a
map from category name to accumulated seconds. Dates are abstracted to Nat
day numbers; the mappings are association lists. -/
structure Database where
  db : List ((Nat × Nat) × List (String × Nat))
deriving DecidableEq, Repr

/-- stats.Database.version. -/
def Database.version : Int := 1

/-- stats.Database.add_time_slice_for_category: the body only logs the
category; the aggregation marked TODO in the source is absent, so the db
mapping is returned unchanged. -/
def Database.add_time_slice_for_category (d : Database) (category : String)
    (from_ts : Option Nat) (to_ts : Nat) : Database :=
  d

/-- Value read or written through pickle; the version field of a store file is
either an int or some non-integer pickled value. -/
inductive PickleVal where
  | pInt (n : Int)
  | pStr (s : String)
deriving DecidableEq, Repr

/-- stats.Database.store: dumps only the integer version number into the
buffer; the db mapping is not written. -/
def Database.store (d : Database) : List PickleVal :=
  [PickleVal.pInt Database.version]

/-- stats.Database.load: reads one pickled value and checks it is an int equal
to Database.version, raising ValueError otherwise; reading from an empty
buffer raises EOFError. The db mapping is not read or rebuilt. -/
def Database.load (buf : List PickleVal) : Except String Unit :=
  match buf with
  | [] => Except.error "EOFError"
  | PickleVal.pInt n :: _ =>
      if n = Database.version then Except.ok ()
      else Except.error "incorrect database version"
  | PickleVal.pStr _ :: _ => Except.error "incorrect database format"

/-- Contents of the database file on disk, as seen by load_database. -/
inductive DbFile where
  | missing
  | present (buf : List PickleVal)
deriving DecidableEq, Repr

/-- Logged outcome of stats.Database.load_database. -/
inductive LoadOutcome where
  | loaded
  | warnMissing
  | errorLog (msg : String)
deriving DecidableEq, Repr

/-- stats.Database.load_database: a missing file (FileNotFoundError) is caught
and logged as a warning; any other exception from load is caught and logged as
an error; nothing is re-raised and the db mapping is never touched. -/
def Database.load_database (d : Database) (f : DbFile) : Database × LoadOutcome :=
  match f with
  | DbFile.missing => (d, LoadOutcome.warnMissing)
  | DbFile.present buf =>
    match Database.load buf with
    | Except.ok _ => (d, LoadOutcome.loaded)
    | Except.error e => (d, LoadOutcome.errorLog e)

/-- stats.Database.__init__: the db mapping starts empty, then load_database
runs on the given file. -/
def Database.init (f : DbFile) : Database × LoadOutcome :=
  Database.load_database { db := [] } f

/-- Fold a sequence of add_time_slice_for_category calls over a database:
each slice is (category, from_ts, to_ts). -/
def Database.flushAll (d : Database) (slices : List (String × Nat × Nat)) : Database :=
  slices.foldl (fun acc s => acc.add_time_slice_for_category s.1 (some s.2.1) s.2.2) d

/-- Sum of the accumulated seconds over all (date, hour) buckets of the db
mapping for one category. -/
def Database.totalSecondsFor (d : Database) (category : String) : Nat :=
  (d.db.map (fun b => ((b.2.filter (fun e => e.1 == category)).map (fun e => e.2)).sum)).sum

/-- Sum of the durations to_ts - from_ts of a list of slices. -/
def sliceDurations (slices : List (String × Nat × Nat)) : Nat :=
  (slices.map (fun s => s.2.2 - s.2.1)).sum

/-- Mutable classification state of stats.StatManager: the current category,
the timestamp at which its slice began, and the database. -/
structure StatState where
  current_category : Optional String
  current_category_since_ts : Option Nat
  db : Database
deriving DecidableEq, Repr

/-- Initial classification state of stats.StatManager.__init__ with a database
loaded from the given file. -/
def StatManager.initState (f : DbFile) : StatState :=
  { current_category := Optional.mk none
    current_category_since_ts := none
    db := (Database.init f).1 }

/-- stats.StatManager.determine_category: scan the ordered filter list and
return the first category whose predicate accepts ctx, or None. -/
def StatManager.determine_category (filters : List (String × (Context → Bool)))
    (ctx : Context) : Option String :=
  match filters with
  | [] => none
  | (c, p) :: rest =>
      if p ctx then some c else StatManager.determine_category rest ctx

/-- stats.StatManager.end_current_time_slice at wall-clock second now: when a
category is current, the slice (category, since_ts, now) is flushed into the
database. The list of flush calls performed is returned alongside the state. -/
def StatManager.end_current_time_slice (s : StatState) (now : Nat) :
    StatState × List (String × Option Nat × Nat) :=
  match s.current_category.obj with
  | some c =>
      ({ s with db := s.db.add_time_slice_for_category c s.current_category_since_ts now },
       [(c, s.current_category_since_ts, now)])
  | none => (s, [])

/-- stats.StatManager.log: determine the category of ctx, compare it with
current_category through the derived Optional.__ne__, and on inequality end
the current slice, store the new category and restart the slice timestamp.
The list of flush calls performed is returned alongside the state. -/
def StatManager.log (filters : List (String × (Context → Bool))) (s : StatState)
    (ctx : Context) (now : Nat) : StatState × List (String × Option Nat × Nat) :=
  let cat := StatManager.determine_category filters ctx
  if (s.current_category.eqVal cat) = false then
    let r := StatManager.end_current_time_slice s now
    ({ r.1 with
        current_category := r.1.current_category.set_value cat
        current_category_since_ts := some now }, r.2)
  else (s, [])

/-- Base daemon mutable state created by util.Daemon.__init__. -/
structure DaemonState where
  _activation_reason : ActivationReason
  _current_activation_reason : ActivationReason
  _activation_counter : Nat
deriving DecidableEq, Repr

/-- util.Daemon.__init__: all reasons NOT_ACTIVATED, counter zero. -/
def Daemon.init : DaemonState :=
  { _activation_reason := ActivationReason.NOT_ACTIVATED
    _current_activation_reason := ActivationReason.NOT_ACTIVATED
    _activation_counter := 0 }

/-- util.Daemon.activate_manually: set the pending reason to ACTIVATED_MANUAL. -/
def Daemon.activate_manually (d : DaemonState) : DaemonState :=
  { d with _activation_reason := ActivationReason.ACTIVATED_MANUAL }

/-- util.Daemon.activation_reason: the reason for the running activate() call. -/
def Daemon.activation_reason (d : DaemonState) : ActivationReason :=
  d._current_activation_reason

/-- util.Daemon._is_activated: a pending activation reason is set. -/
def Daemon._is_activated (d : DaemonState) : Bool :=
  d._activation_reason != ActivationReason.NOT_ACTIVATED

/-- util.Daemon._activate over an object state σ embedding a DaemonState
through the lens (getD, setD); cb is the activate() callback, whose Python
return value is an Option Bool (none models a missing return statement).
The reactivation counter is incremented and checked against the constant 100,
raising RuntimeError (Except.error) above it; then the pending reason becomes
the current reason for the duration of cb, the pending flag is cleared, and
the current reason is reset to NOT_ACTIVATED before returning the value that
cb returned. -/
def Daemon._activate {σ : Type} (getD : σ → DaemonState) (setD : σ → DaemonState → σ)
    (cb : σ → Option Bool × σ) (s : σ) : Except String (Option Bool × σ) :=
  let d1 := getD s
  let d2 := { d1 with _activation_counter := d1._activation_counter + 1 }
  if d2._activation_counter > 100 then
    Except.error "reactivation loop detected"
  else
    let d3 := { d2 with
      _current_activation_reason := d2._activation_reason
      _activation_reason := ActivationReason.NOT_ACTIVATED }
    let r := cb (setD s d3)
    let d4 := getD r.2
    Except.ok (r.1, setD r.2 { d4 with _current_activation_reason := ActivationReason.NOT_ACTIVATED })

/-- Callback of a daemon that calls activate_manually on itself from inside
every activate() call and returns True to keep the loop running. -/
def selfReactivatingCb (s : DaemonState) : Option Bool × DaemonState :=
  (some true, Daemon.activate_manually s)

/-- Drain loop of util.Daemon.event_loop restricted to a single daemon whose
callback is selfReactivatingCb: run Daemon._activate n times in one cycle,
propagating a raised error. -/
def drainN : Nat → DaemonState → Except String DaemonState
  | 0, s => Except.ok s
  | n + 1, s =>
    match Daemon._activate (fun x => x) (fun _ d => d) selfReactivatingCb s with
    | Except.error e => Except.error e
    | Except.ok r => drainN n r.2

/-- Extra state of util.FixedIntervalTimeoutDaemon: the fixed interval and the
next planned timeout timestamp. -/
structure FixedIntervalState extends DaemonState where
  _interval_sec : Nat
  _next_timeout_timestamp_sec : Int
deriving DecidableEq, Repr

/-- util.FixedIntervalTimeoutDaemon.timeout: remaining seconds to the next
planned timeout, clamped into the interval against clock shifts. -/
def FixedIntervalTimeoutDaemon.timeout (now : Int) (s : FixedIntervalState) : Int :=
  max 0 (min (s._next_timeout_timestamp_sec - now) (Int.ofNat s._interval_sec))

/-- util.FixedIntervalTimeoutDaemon._activate: recompute the next timeout
timestamp, run the base Daemon._activate, and fall off the end without a
return statement, so the Python return value is None and the value returned by
the base _activate is dropped (only its state changes survive). -/
def FixedIntervalTimeoutDaemon._activate
    (cb : FixedIntervalState → Option Bool × FixedIntervalState) (now : Int)
    (s : FixedIntervalState) : Except String (Option Bool × FixedIntervalState) :=
  let s1 := { s with _next_timeout_timestamp_sec := now + Int.ofNat s._interval_sec }
  match Daemon._activate (fun x => x.toDaemonState)
      (fun x d => { x with toDaemonState := d }) cb s1 with
  | Except.error e => Except.error e
  | Except.ok r => Except.ok (none, r.2)

/-- Termination test of the drain loop of util.Daemon.event_loop: the value
returned by d._activate() is compared with False by Python equality, under
which None is unequal to False. -/
def Daemon.event_loop_stops (r : Option Bool) : Bool :=
  r == some false

/-- One daemon as seen by the wait phase of util.Daemon.event_loop: its
pending activation reason, the value its timeout() method returned this cycle,
and whether the selector reported its handle ready. -/
structure LoopDaemon where
  _activation_reason : ActivationReason
  timeout : Option Int
  ready : Bool
deriving DecidableEq, Repr

/-- One step of the wait-phase scan of event_loop over (index, daemon) pairs:
a daemon with no timeout is skipped; a strictly smaller timeout resets the
tied list to that daemon alone; an equal timeout appends the daemon. -/
def Daemon.lowest_timeout_step (acc : Option Int × List Nat) (p : Nat × LoopDaemon) :
    Option Int × List Nat :=
  match p.2.timeout with
  | none => acc
  | some t =>
    match acc.1 with
    | none => (some t, [p.1])
    | some m =>
        if t < m then (some t, [p.1])
        else if t == m then (some m, acc.2 ++ [p.1])
        else acc

/-- Wait-phase scan of event_loop: the minimal timeout over the daemons that
report one, together with the daemons (by position) tied at that minimum. -/
def Daemon.lowest_timeout (ds : List LoopDaemon) : Option Int × List Nat :=
  ds.enum.foldl Daemon.lowest_timeout_step (none, [])

/-- Wake step of event_loop after the selector returns: when at least one
handle is ready, every ready daemon gets pending reason ACTIVATED_DATA;
otherwise the wait timed out and every daemon tied at the minimal timeout gets
pending reason ACTIVATED_TIMEOUT. -/
def Daemon.wake (ds : List LoopDaemon) : List LoopDaemon :=
  if ds.any (fun d => d.ready) then
    ds.map (fun d =>
      if d.ready then { d with _activation_reason := ActivationReason.ACTIVATED_DATA } else d)
  else
    ds.enum.map (fun p =>
      if p.1 ∈ (Daemon.lowest_timeout ds).2 then
        { p.2 with _activation_reason := ActivationReason.ACTIVATED_TIMEOUT }
      else p.2)

/-- stats.StatManager.activate: assert that the activation reason is
ACTIVATED_TIMEOUT (an AssertionError is raised otherwise), then store the
database; the buffer written by store_database is returned. -/
def StatManager.activate (d : DaemonState) (db : Database) : Except String (List PickleVal) :=
  if Daemon.activation_reason d = ActivationReason.ACTIVATED_TIMEOUT then
    Except.ok (Database.store db)
  else
    Except.error "AssertionError"

/-- Prefix test on lists of characters. -/
def charsPrefixOf : List Char → List Char → Bool
  | [], _ => true
  | _ :: _, [] => false
  | a :: as, b :: bs => a == b && charsPrefixOf as bs

/-- Substring containment on lists of characters. -/
def charsContains (needle : List Char) : List Char → Bool
  | [] => charsPrefixOf needle []
  | a :: rest => charsPrefixOf needle (a :: rest) || charsContains needle rest

/-- Python substring test pat in s. -/
def strContains (s pat : String) : Bool :=
  charsContains pat.data s.data

/-- Filter predicate described by the claims: the window name contains pat. -/
def nameContainsFilter (pat : String) (ctx : Context) : Bool :=
  match ctx.win_name.obj with
  | some n => strContains n pat
  | none => false

/-- Filter predicate described by the claims: the window class equals cls. -/
def classEqualsFilter (cls : String) (ctx : Context) : Bool :=
  ctx.win_class.obj == some cls

/-- Ordered filter list of the first-match scenario: work when the name
contains ide, browser when the class is firefox. -/
def exampleFilters : List (String × (Context → Bool)) :=
  [("work", nameContainsFilter "ide"), ("browser", classEqualsFilter "firefox")]

/-- ClassificationInput of the first-match scenario: class firefox, name
ide-something. -/
def exampleCtx : Context :=
  Context.make (some "ide-something") (some "firefox")

/-- ClassificationInput with no window information, accepted by no filter. -/
def emptyCtx : Context :=
  Context.make none none

/-- StatState with no current category but a slice-start timestamp left over
from an earlier transition (reachable, e.g., after one uncategorized input at
second 5 from the initial state). -/
def c4State : StatState :=
  { current_category := Optional.mk none
    current_category_since_ts := some 5
    db := { db := [] } }

/-- Fixed-interval daemon state with a pending timeout activation. -/
def fiState : FixedIntervalState :=
  { _activation_reason := ActivationReason.ACTIVATED_TIMEOUT
    _current_activation_reason := ActivationReason.NOT_ACTIVATED
    _activation_counter := 0
    _interval_sec := 10
    _next_timeout_timestamp_sec := 40 }

/-- Callback over a fixed-interval daemon state that requests shutdown:
activate() returns False. -/
def stopRequestingCb (s : FixedIntervalState) : Option Bool × FixedIntervalState :=
  (some false, s)

/-- Callback over a base daemon state that requests shutdown. -/
def stopRequestingCbD (s : DaemonState) : Option Bool × DaemonState :=
  (some false, s)

/-- Daemon state whose current activation reason is ACTIVATED_MANUAL, as seen
from inside an activate() call triggered by activate_manually. -/
def manualDaemon : DaemonState :=
  { _activation_reason := ActivationReason.NOT_ACTIVATED
    _current_activation_reason := ActivationReason.ACTIVATED_MANUAL
    _activation_counter := 1 }

/-- Database holding one bucket with one category, as a concrete aggregate. -/
def c8Database : Database :=
  { db := [((17532, 10), [("work", 30)])] }

/-- Wait-phase scenario: four daemons, one without timeout, two tied at the
minimal timeout 3, none ready. -/
def exampleLoopDaemons : List LoopDaemon :=
  [ { _activation_reason := ActivationReason.NOT_ACTIVATED, timeout := some 5, ready := false }
  , { _activation_reason := ActivationReason.NOT_ACTIVATED, timeout := none, ready := false }
  , { _activation_reason := ActivationReason.NOT_ACTIVATED, timeout := some 3, ready := false }
  , { _activation_reason := ActivationReason.NOT_ACTIVATED, timeout := some 3, ready := false } ]

/-- Claim C1, evaluated at the failing input: flushing a single slice of
duration 3 seconds for category work into an empty database leaves the sum of
accumulated seconds across all buckets at 0, not 3, because
add_time_slice_for_category only logs and never updates the mapping. -/
theorem c1_stub_breaks_accounting_invariant :
    sliceDurations [("work", 0, 3)] = 3 ∧
    (Database.flushAll { db := [] } [("work", 0, 3)]).totalSecondsFor "work" = 0 := by
  exact ⟨rfl, rfl⟩

/-- Claim C2: determine_category returns the category label of the first
filter in list order whose predicate accepts ctx, and None when no predicate
accepts ctx: it equals the label of the first list entry found by the
predicate, and it is None exactly when every predicate rejects ctx. -/
theorem determine_category_first_match (filters : List (String × (Context → Bool)))
    (ctx : Context) :
    StatManager.determine_category filters ctx
      = (filters.find? (fun cp => cp.2 ctx)).map Prod.fst
    ∧ (StatManager.determine_category filters ctx = none
        ↔ ∀ cp ∈ filters, cp.2 ctx = false) := by
  constructor
  · induction filters with
    | nil => rfl
    | cons hd tl ih =>
      obtain ⟨c, p⟩ := hd
      by_cases hp : p ctx
      · simp [StatManager.determine_category, List.find?, hp]
      · simp only [Bool.not_eq_true] at hp
        simp [StatManager.determine_category, List.find?, hp, ih]
  · induction filters with
    | nil => simp [StatManager.determine_category]
    | cons hd tl ih =>
      obtain ⟨c, p⟩ := hd
      by_cases hp : p ctx
      · simp [StatManager.determine_category, hp]
      · simp only [Bool.not_eq_true] at hp
        simp [StatManager.determine_category, hp, ih]

/-- Claim C3, counterexample: with the ordered filters
[(work, name contains ide), (browser, class equals firefox)] and the input
whose class is firefox and name is ide-something, determine_category does not
resolve to browser. -/
theorem c3_counterexample :
    ¬ (StatManager.determine_category exampleFilters exampleCtx = some "browser") := by
  decide

/-- Claim C3, amended: with those filters and that input, determine_category
resolves to work, because the first filter in order (name contains ide)
accepts the input and the first match wins. -/
theorem c3_first_match_is_work :
    StatManager.determine_category exampleFilters exampleCtx = some "work" := by
  decide

/-- Claim C4, counterexample: a state with no current category and an input
that no filter accepts, so the determined category and the current category
are both absent; log nevertheless restarts the slice-start timestamp, because
the comparison of an empty Optional with None through Optional.__eq__ yields
False and the not-equal branch is taken. -/
theorem c4_counterexample :
    StatManager.determine_category [] emptyCtx = c4State.current_category.obj ∧
    (StatManager.log [] c4State emptyCtx 7).1.current_category_since_ts
      ≠ c4State.current_category_since_ts := by
  exact ⟨rfl, by decide⟩

/-- Claim C4, amended: when the determined category equals the current
category and both are present, log changes nothing and flushes nothing; when
both are the absent value, log flushes nothing, keeps the category absent and
the database unchanged, but resets the slice-start timestamp to now. -/
theorem log_on_equal_category (filters : List (String × (Context → Bool)))
    (s : StatState) (ctx : Context) (now : Nat)
    (heq : StatManager.determine_category filters ctx = s.current_category.obj) :
    (s.current_category.obj ≠ none → StatManager.log filters s ctx now = (s, []))
    ∧ (s.current_category.obj = none →
        (StatManager.log filters s ctx now).2 = []
        ∧ (StatManager.log filters s ctx now).1.current_category.obj = none
        ∧ (StatManager.log filters s ctx now).1.db = s.db
        ∧ (StatManager.log filters s ctx now).1.current_category_since_ts = some now) := by
  cases hcc : s.current_category.obj with
  | some c =>
    refine ⟨fun _ => ?_, fun h => Option.noConfusion h⟩
    have hcat : StatManager.determine_category filters ctx = some c := by rw [heq, hcc]
    have hval : s.current_category.eqVal (some c) = true := by
      simp [Optional.eqVal, hcc]
    simp [StatManager.log, hcat, hval]
  | none =>
    refine ⟨fun h => absurd rfl h, fun _ => ?_⟩
    have hcat : StatManager.determine_category filters ctx = none := by rw [heq, hcc]
    have hval : s.current_category.eqVal none = false := by
      simp [Optional.eqVal, hcc]
    simp [StatManager.log, hcat, hval, StatManager.end_current_time_slice, hcc,
      Optional.set_value]

/-- Witness for the amended claim C4 at a concrete reachable state: with no
filters and an empty input, the determined category equals the (absent)
current category, and log resets the slice-start timestamp to the current
second 9. -/
theorem log_on_equal_category_witness :
    c4State.current_category.obj = none ∧
    (StatManager.log [] c4State emptyCtx 9).1.current_category_since_ts = some 9 :=
  ⟨by decide, ((log_on_equal_category [] c4State emptyCtx 9 (by decide)).2 (by decide)).2.2.2⟩

/-- Claim C5, counterexample: within one cycle, eleven activations of a
self-reactivating daemon do not raise, although a configured ceiling of 10,
which the claim admits, would require a raise on the eleventh; no raise
happens before the 101st activation, because the ceiling is the hard-coded
constant 100 and no configuration surface exists. -/
theorem c5_counterexample :
    (drainN 11 Daemon.init).isOk = true ∧ (drainN 101 Daemon.init).isOk = false := by
  exact ⟨rfl, rfl⟩

/-- Claim C5, amended: the reactivation ceiling is the fixed constant 100:
starting from a freshly reset counter, every number of activations up to 100
within one cycle succeeds, and the 101st raises the reactivation-loop
RuntimeError deterministically. -/
theorem reactivation_ceiling_is_fixed_100 :
    ((List.range 101).all (fun n => (drainN n Daemon.init).isOk)) = true
    ∧ drainN 101 Daemon.init = Except.error "reactivation loop detected" := by
  exact ⟨by decide, rfl⟩

/-- Claim C6, evaluated at the failing input: for a callback that returns
False, the base Daemon._activate returns that False and the termination test
of event_loop fires, but FixedIntervalTimeoutDaemon._activate discards the
value returned by the base _activate (its body lacks a return statement) and
yields None, for which the termination test does not fire, so the scheduler
keeps running instead of terminating. -/
theorem c6_fixed_interval_drops_return :
    (Daemon._activate (fun x => x) (fun _ d => d) stopRequestingCbD fiState.toDaemonState).map
      (fun r => Daemon.event_loop_stops r.1) = Except.ok true
    ∧ (FixedIntervalTimeoutDaemon._activate stopRequestingCb 50 fiState).map
      (fun r => Daemon.event_loop_stops r.1) = Except.ok false := by
  exact ⟨rfl, rfl⟩

/-- Claim C8, evaluated at the failing input: storing a database holding one
bucket with 30 seconds for category work writes a buffer whose version check
passes on load, yet loading that buffer into a fresh database leaves the
bucket-to-category-to-seconds mapping empty rather than reproducing the
original one, because store writes only the version and load reads only the
version. -/
theorem c8_store_load_loses_mapping :
    Database.load (Database.store c8Database) = Except.ok ()
    ∧ (Database.init (DbFile.present (Database.store c8Database))).2 = LoadOutcome.loaded
    ∧ (Database.init (DbFile.present (Database.store c8Database))).1.db = []
    ∧ c8Database.db ≠ [] := by
  exact ⟨rfl, rfl, rfl, by decide⟩

/-- Claim C9: for any store file whose first pickled value is not the
expected integer version (missing, non-integer, or a different integer),
load_database returns normally with an error logged and the database mapping
left empty; a missing file is logged as a warning and the mapping is likewise
left empty. -/
theorem load_database_rejects_bad_version (buf : List PickleVal)
    (h : buf.head? ≠ some (PickleVal.pInt Database.version)) :
    (∃ msg, Database.init (DbFile.present buf) = ({ db := [] }, LoadOutcome.errorLog msg))
    ∧ Database.init DbFile.missing = ({ db := [] }, LoadOutcome.warnMissing) := by
  refine ⟨?_, rfl⟩
  cases buf with
  | nil => exact ⟨"EOFError", rfl⟩
  | cons v rest =>
    cases v with
    | pInt n =>
      have hn : n ≠ Database.version := by
        intro e
        exact h (by rw [e]; rfl)
      refine ⟨"incorrect database version", ?_⟩
      simp [Database.init, Database.load_database, Database.load, hn]
    | pStr s => exact ⟨"incorrect database format", rfl⟩

/-- Witness for claim C9 at a concrete store file whose version field holds a
string: the load is abandoned with an error logged and the mapping is empty. -/
theorem load_database_rejects_bad_version_witness :
    ([PickleVal.pStr "bad"].head? ≠ some (PickleVal.pInt Database.version))
    ∧ (∃ msg, Database.init (DbFile.present [PickleVal.pStr "bad"])
        = ({ db := [] }, LoadOutcome.errorLog msg)) :=
  ⟨by decide, (load_database_rejects_bad_version [PickleVal.pStr "bad"] (by decide)).1⟩

/-- Claim C10: StatManager.activate asserts that the current activation
reason is ACTIVATED_TIMEOUT: under any other reason the assertion raises, and
under the timeout reason it holds and the database is stored. -/
theorem statmanager_activate_requires_timeout (d : DaemonState) (db : Database) :
    (Daemon.activation_reason d ≠ ActivationReason.ACTIVATED_TIMEOUT →
      StatManager.activate d db = Except.error "AssertionError")
    ∧ (Daemon.activation_reason d = ActivationReason.ACTIVATED_TIMEOUT →
      StatManager.activate d db = Except.ok (Database.store db)) := by
  constructor
  · intro h
    simp [StatManager.activate, h]
  · intro h
    simp [StatManager.activate, h]

/-- Witness for claim C10: a manual activation reason fails the assertion of
StatManager.activate on a concrete empty database. -/
theorem statmanager_activate_requires_timeout_witness :
    (Daemon.activation_reason manualDaemon ≠ ActivationReason.ACTIVATED_TIMEOUT)
    ∧ StatManager.activate manualDaemon { db := [] } = Except.error "AssertionError" :=
  ⟨by decide, (statmanager_activate_requires_timeout manualDaemon { db := [] }).1 (by decide)⟩

/-- Behaviour of the wait-phase scan fold over any list of (index, daemon)
pairs: the first accumulator component is the minimum of the reported
timeouts (none when no daemon reports one), and the second lists, in order,
the indices of exactly the pairs whose timeout equals that minimum. -/
theorem lowest_timeout_fold_spec (l : List (Nat × LoopDaemon)) :
    ((l.foldl Daemon.lowest_timeout_step (none, [])).1 = none
        ↔ ∀ p ∈ l, p.2.timeout = none)
    ∧ ((l.foldl Daemon.lowest_timeout_step (none, [])).1 = none
        → (l.foldl Daemon.lowest_timeout_step (none, [])).2 = [])
    ∧ (∀ m, (l.foldl Daemon.lowest_timeout_step (none, [])).1 = some m →
        (∃ p ∈ l, p.2.timeout = some m)
        ∧ (∀ p ∈ l, ∀ v, p.2.timeout = some v → m ≤ v)
        ∧ (l.foldl Daemon.lowest_timeout_step (none, [])).2
            = (l.filter (fun p => p.2.timeout == some m)).map Prod.fst) := by
  induction l using List.reverseRecOn with
  | nil =>
    refine ⟨by simp, fun _ => rfl, fun m hm => by simp at hm⟩
  | append_singleton l x ih =>
    obtain ⟨ih1, ih2, ih3⟩ := ih
    have hfold : (l ++ [x]).foldl Daemon.lowest_timeout_step (none, [])
        = Daemon.lowest_timeout_step (l.foldl Daemon.lowest_timeout_step (none, [])) x := by
      rw [List.foldl_append]; rfl
    rw [hfold]
    cases ht : x.2.timeout with
    | none =>
      have hstep : Daemon.lowest_timeout_step (l.foldl Daemon.lowest_timeout_step (none, [])) x
          = l.foldl Daemon.lowest_timeout_step (none, []) := by
        simp [Daemon.lowest_timeout_step, ht]
      rw [hstep]
      refine ⟨?_, ih2, ?_⟩
      · rw [ih1]
        constructor
        · intro h p hp
          rcases List.mem_append.mp hp with h1 | h1
          · exact h p h1
          · rw [List.mem_singleton.mp h1]; exact ht
        · intro h p hp
          exact h p (List.mem_append_left _ hp)
      · intro m hm
        obtain ⟨hex, hbd, hfil⟩ := ih3 m hm
        refine ⟨?_, ?_, ?_⟩
        · obtain ⟨p, hp, hpt⟩ := hex
          exact ⟨p, List.mem_append_left _ hp, hpt⟩
        · intro p hp v hv
          rcases List.mem_append.mp hp with h1 | h1
          · exact hbd p h1 v hv
          · rw [List.mem_singleton.mp h1, ht] at hv; cases hv
        · rw [hfil, List.filter_append]
          have hx : List.filter (fun p => p.2.timeout == some m) [x] = [] := by
            simp [List.filter, ht]
          rw [hx, List.append_nil]
    | some t =>
      cases hm0 : (l.foldl Daemon.lowest_timeout_step (none, [])).1 with
      | none =>
        have hall : ∀ p ∈ l, p.2.timeout = none := ih1.mp hm0
        have hstep : Daemon.lowest_timeout_step (l.foldl Daemon.lowest_timeout_step (none, [])) x
            = (some t, [x.1]) := by
          simp [Daemon.lowest_timeout_step, ht, hm0]
        rw [hstep]
        refine ⟨?_, fun h => Option.noConfusion h, ?_⟩
        · constructor
          · intro h; exact Option.noConfusion h
          · intro h
            have hx := h x (List.mem_append_right _ (List.mem_singleton_self x))
            rw [ht] at hx; cases hx
        · intro m hm
          have hmt : t = m := Option.some.inj hm
          subst hmt
          refine ⟨⟨x, List.mem_append_right _ (List.mem_singleton_self x), ht⟩, ?_, ?_⟩
          · intro p hp v hv
            rcases List.mem_append.mp hp with h1 | h1
            · rw [hall p h1] at hv; cases hv
            · rw [List.mem_singleton.mp h1, ht] at hv
              rw [Option.some.inj hv]
          · have hfl : List.filter (fun p => p.2.timeout == some t) l = [] := by
              rw [List.filter_eq_nil_iff]
              intro p hp
              simp [hall p hp]
            rw [List.filter_append, hfl]
            simp [List.filter, ht]
      | some m0 =>
        obtain ⟨hex, hbd, hfil⟩ := ih3 m0 hm0
        rcases lt_trichotomy t m0 with h1 | h1 | h1
        · -- t < m0 : reset to x alone
          have hstep : Daemon.lowest_timeout_step (l.foldl Daemon.lowest_timeout_step (none, [])) x
              = (some t, [x.1]) := by
            simp [Daemon.lowest_timeout_step, ht, hm0, h1]
          rw [hstep]
          refine ⟨?_, fun h => Option.noConfusion h, ?_⟩
          · constructor
            · intro h; exact Option.noConfusion h
            · intro h
              have hx := h x (List.mem_append_right _ (List.mem_singleton_self x))
              rw [ht] at hx; cases hx
          · intro m hm
            have hmt : t = m := Option.some.inj hm
            subst hmt
            refine ⟨⟨x, List.mem_append_right _ (List.mem_singleton_self x), ht⟩, ?_, ?_⟩
            · intro p hp v hv
              rcases List.mem_append.mp hp with hpl | hpl
              · have := hbd p hpl v hv
                omega
              · rw [List.mem_singleton.mp hpl, ht] at hv
                rw [Option.some.inj hv]
            · have hfl : List.filter (fun p => p.2.timeout == some t) l = [] := by
                rw [List.filter_eq_nil_iff]
                intro p hp
                intro hc
                simp only [beq_iff_eq] at hc
                have := hbd p hp t hc
                omega
              rw [List.filter_append, hfl]
              simp [List.filter, ht]
        · -- t = m0 : append x to the tied list
          subst h1
          have hstep : Daemon.lowest_timeout_step (l.foldl Daemon.lowest_timeout_step (none, [])) x
              = (some t, (l.foldl Daemon.lowest_timeout_step (none, [])).2 ++ [x.1]) := by
            simp [Daemon.lowest_timeout_step, ht, hm0]
          rw [hstep]
          refine ⟨?_, fun h => Option.noConfusion h, ?_⟩
          · constructor
            · intro h; exact Option.noConfusion h
            · intro h
              have hx := h x (List.mem_append_right _ (List.mem_singleton_self x))
              rw [ht] at hx; cases hx
          · intro m hm
            have hmt : t = m := Option.some.inj hm
            subst hmt
            obtain ⟨p0, hp0, hp0t⟩ := hex
            refine ⟨⟨p0, List.mem_append_left _ hp0, hp0t⟩, ?_, ?_⟩
            · intro p hp v hv
              rcases List.mem_append.mp hp with hpl | hpl
              · exact hbd p hpl v hv
              · rw [List.mem_singleton.mp hpl, ht] at hv
                rw [Option.some.inj hv]
            · rw [List.filter_append, hfil]
              have hfx : List.filter (fun p => p.2.timeout == some t) [x] = [x] := by
                simp [List.filter, ht]
              rw [hfx, List.map_append]
              rfl
        · -- m0 < t : accumulator unchanged
          have hne : ¬ t < m0 := by omega
          have hne2 : t ≠ m0 := by omega
          have hstep : Daemon.lowest_timeout_step (l.foldl Daemon.lowest_timeout_step (none, [])) x
              = l.foldl Daemon.lowest_timeout_step (none, []) := by
            simp [Daemon.lowest_timeout_step, ht, hm0, hne, hne2]
          rw [hstep]
          refine ⟨?_, ih2, ?_⟩
          · constructor
            · intro h
              rw [hm0] at h; cases h
            · intro h
              have hx := h x (List.mem_append_right _ (List.mem_singleton_self x))
              rw [ht] at hx; cases hx
          · intro m hm
            rw [hm0] at hm
            have hmm : m0 = m := Option.some.inj hm
            subst hmm
            obtain ⟨p0, hp0, hp0t⟩ := hex
            refine ⟨⟨p0, List.mem_append_left _ hp0, hp0t⟩, ?_, ?_⟩
            · intro p hp v hv
              rcases List.mem_append.mp hp with hpl | hpl
              · exact hbd p hpl v hv
              · rw [List.mem_singleton.mp hpl, ht] at hv
                rw [← Option.some.inj hv]
                omega
            · rw [List.filter_append, hfil]
              have hb : (t == m0) = false := beq_eq_false_iff_ne.mpr hne2
              have hfx : List.filter (fun p => p.2.timeout == some m0) [x] = [] := by
                simp [List.filter, ht, hb]
              rw [hfx, List.append_nil]

/-- Claim C7: in the wait phase, the computed timeout is the minimum timeout
over all daemons that report one (and none when none does); the tied-minimum
set holds exactly the positions of the daemons whose timeout equals that
minimum; when at least one handle is ready, exactly the ready daemons get
pending reason ACTIVATED_DATA; when the wait ends by timeout with no ready
handle, exactly the daemons in the tied-minimum set get pending reason
ACTIVATED_TIMEOUT. -/
theorem wait_phase_spec (ds : List LoopDaemon) :
    ((Daemon.lowest_timeout ds).1 = none ↔ ∀ d ∈ ds, d.timeout = none)
    ∧ (∀ m, (Daemon.lowest_timeout ds).1 = some m →
        (∃ d ∈ ds, d.timeout = some m)
        ∧ (∀ d ∈ ds, ∀ v, d.timeout = some v → m ≤ v)
        ∧ (∀ i : Nat, i ∈ (Daemon.lowest_timeout ds).2
            ↔ ∃ d, ds[i]? = some d ∧ d.timeout = some m))
    ∧ (ds.any (fun d => d.ready) = true →
        ∀ i : Nat, (Daemon.wake ds)[i]? = ds[i]?.map (fun d =>
          if d.ready then { d with _activation_reason := ActivationReason.ACTIVATED_DATA }
          else d))
    ∧ (ds.any (fun d => d.ready) = false →
        ∀ i : Nat, (Daemon.wake ds)[i]? = ds[i]?.map (fun d =>
          if d.timeout.isSome ∧ d.timeout = (Daemon.lowest_timeout ds).1
          then { d with _activation_reason := ActivationReason.ACTIVATED_TIMEOUT }
          else d)) := by
  obtain ⟨h1, h2, h3⟩ := lowest_timeout_fold_spec ds.enum
  have hA : (Daemon.lowest_timeout ds).1 = none ↔ ∀ d ∈ ds, d.timeout = none := by
    rw [show (Daemon.lowest_timeout ds) = ds.enum.foldl Daemon.lowest_timeout_step (none, []) from rfl]
    rw [h1]
    constructor
    · intro h d hd
      obtain ⟨i, hi⟩ := List.mem_iff_getElem?.mp hd
      exact h (i, d) (List.mem_enum_iff_getElem?.mpr hi)
    · intro h p hp
      exact h p.2 (List.mem_iff_getElem?.mpr ⟨p.1, List.mem_enum_iff_getElem?.mp hp⟩)
  have hB : ∀ m, (Daemon.lowest_timeout ds).1 = some m →
      (∃ d ∈ ds, d.timeout = some m)
      ∧ (∀ d ∈ ds, ∀ v, d.timeout = some v → m ≤ v)
      ∧ (∀ i : Nat, i ∈ (Daemon.lowest_timeout ds).2
          ↔ ∃ d, ds[i]? = some d ∧ d.timeout = some m) := by
    intro m hm
    obtain ⟨hex, hbd, hfil⟩ := h3 m hm
    refine ⟨?_, ?_, ?_⟩
    · obtain ⟨p, hp, hpt⟩ := hex
      exact ⟨p.2, List.mem_iff_getElem?.mpr ⟨p.1, List.mem_enum_iff_getElem?.mp hp⟩, hpt⟩
    · intro d hd v hv
      obtain ⟨i, hi⟩ := List.mem_iff_getElem?.mp hd
      exact hbd (i, d) (List.mem_enum_iff_getElem?.mpr hi) v hv
    · intro i
      rw [show (Daemon.lowest_timeout ds).2
          = (ds.enum.foldl Daemon.lowest_timeout_step (none, [])).2 from rfl, hfil]
      constructor
      · intro hi
        obtain ⟨p, hpf, hpi⟩ := List.mem_map.mp hi
        obtain ⟨hpe, hpp⟩ := List.mem_filter.mp hpf
        refine ⟨p.2, ?_, ?_⟩
        · rw [← hpi]; exact List.mem_enum_iff_getElem?.mp hpe
        · exact beq_iff_eq.mp hpp
      · rintro ⟨d, hgd, hdt⟩
        refine List.mem_map.mpr ⟨(i, d), List.mem_filter.mpr ⟨?_, ?_⟩, rfl⟩
        · exact List.mem_enum_iff_getElem?.mpr hgd
        · simp [hdt]
  have hC : ds.any (fun d => d.ready) = true →
      ∀ i : Nat, (Daemon.wake ds)[i]? = ds[i]?.map (fun d =>
        if d.ready then { d with _activation_reason := ActivationReason.ACTIVATED_DATA }
        else d) := by
    intro hr i
    simp only [Daemon.wake, hr, if_true]
    exact List.getElem?_map _ ds i
  have hD : ds.any (fun d => d.ready) = false →
      ∀ i : Nat, (Daemon.wake ds)[i]? = ds[i]?.map (fun d =>
        if d.timeout.isSome ∧ d.timeout = (Daemon.lowest_timeout ds).1
        then { d with _activation_reason := ActivationReason.ACTIVATED_TIMEOUT }
        else d) := by
    intro hr i
    simp only [Daemon.wake, hr, Bool.false_eq_true, if_false]
    rw [List.getElem?_map, List.getElem?_enum, Option.map_map]
    cases hgd : ds[i]? with
    | none => rfl
    | some d =>
      simp only [Option.map_some', Function.comp_apply]
      have hcond : (i ∈ (Daemon.lowest_timeout ds).2)
          ↔ (d.timeout.isSome ∧ d.timeout = (Daemon.lowest_timeout ds).1) := by
        cases hmin : (Daemon.lowest_timeout ds).1 with
        | none =>
          have hnone : d.timeout = none :=
            hA.mp hmin d (List.mem_iff_getElem?.mpr ⟨i, hgd⟩)
          have hlows : (Daemon.lowest_timeout ds).2 = [] := h2 hmin
          rw [hlows, hnone]
          simp
        | some m =>
          have hty := (hB m hmin).2.2 i
          rw [hty]
          constructor
          · rintro ⟨d2, hd2, hd2t⟩
            rw [hgd] at hd2
            rw [← Option.some.inj hd2] at hd2t
            exact ⟨by rw [hd2t]; rfl, by rw [hd2t]⟩
          · rintro ⟨hs, hdt⟩
            exact ⟨d, hgd, hdt⟩
      by_cases hc : i ∈ (Daemon.lowest_timeout ds).2
      · rw [if_pos hc, if_pos (hcond.mp hc)]
      · rw [if_neg hc, if_neg (fun hx => hc (hcond.mpr hx))]
  exact ⟨hA, hB, hC, hD⟩

/-- Witness for claim C7 in a concrete wait phase with four daemons, two of
them tied at the minimal timeout and none ready: the daemon at position 2
belongs to the tied set and is marked ACTIVATED_TIMEOUT. -/
theorem wait_phase_spec_witness :
    (exampleLoopDaemons.any (fun d => d.ready) = false)
    ∧ (Daemon.wake exampleLoopDaemons)[2]? = exampleLoopDaemons[2]?.map (fun d =>
        if d.timeout.isSome ∧ d.timeout = (Daemon.lowest_timeout exampleLoopDaemons).1
        then { d with _activation_reason := ActivationReason.ACTIVATED_TIMEOUT }
        else d) :=
  ⟨by decide, ((wait_phase_spec exampleLoopDaemons).2.2.2 (by decide)) 2⟩
